import Mathlib

/-!
Shallow embedding of `tap_aws_s3/streams.py` (class `S3CSVStream`) and the
surrounding run orchestration, for checking the natural-language spec of the
incremental S3 CSV extraction pipeline against the code.

Conventions of the embedding:
* Python `datetime` values (S3 `LastModified`, timezone-aware UTC) are modelled
  by the `Datetime` structure; comparison is lexicographic on the components,
  `isoformat` renders them with the `+00:00` offset suffix.
* CSV text content is modelled after what `csv.DictReader` observes: a header
  row and a list of data rows (`FileData.tabular`), or content whose UTF-8
  decoding / header read fails (`FileData.undecodable`).
* An S3 object body is a byte blob with two partial interpretations: as a ZIP
  container (`asZip`, `none` when the bytes are not a valid archive) and as a
  tabular text file (`asFile`).
* A Python generator that yields some records and then raises is modelled by a
  pair `List Record × Option String`: the records yielded before the abort and
  the pending exception, if any.
-/

set_option autoImplicit false

namespace TapAwsS3

/-- Suffix test on strings, modelling Python `str.endswith`, computed on the
underlying character lists so that it evaluates by kernel reduction. -/
def strEndsWith (s suf : String) : Bool :=
  List.isSuffixOf suf.data s.data

/-- Zero-padding to two digits, as Python `datetime.isoformat` renders
month/day/hour/minute/second fields. -/
def pad2 (n : Nat) : String :=
  if n < 10 then "0" ++ toString n else toString n

/-- A timezone-aware UTC timestamp, as boto3 returns for `LastModified` and as
`pendulum.parse` produces for `start_date`. -/
structure Datetime where
  year : Nat
  month : Nat
  day : Nat
  hour : Nat
  minute : Nat
  second : Nat
  deriving DecidableEq, Repr

/-- Injective (for in-range field values) linearisation of a `Datetime`; field
comparisons on Python datetimes are lexicographic, which this key realises. -/
def Datetime.key (d : Datetime) : Nat :=
  ((((d.year * 13 + d.month) * 32 + d.day) * 24 + d.hour) * 60 + d.minute) * 60 + d.second

/-- Python `<=` on timezone-aware datetimes. -/
def Datetime.leb (a b : Datetime) : Bool :=
  a.key ≤ b.key

/-- Python `datetime.isoformat()` on a timezone-aware UTC value: the date and
time fields joined as ISO-8601, with the `+00:00` offset appended. -/
def Datetime.isoformat (d : Datetime) : String :=
  toString d.year ++ "-" ++ pad2 d.month ++ "-" ++ pad2 d.day ++ "T" ++
    pad2 d.hour ++ ":" ++ pad2 d.minute ++ ":" ++ pad2 d.second ++ "+00:00"

/-- Python `str` on a value that is a string or `None` (`None` renders as the
literal text "None"). -/
def pyStr : Option String → String
  | some s => s
  | none => "None"

/-- The value cleaning of `_iterate_csv` line 131:
`str(v) if v is not None else None`. -/
def clean_value (v : Option String) : Option String :=
  match v with
  | none => none
  | some _ => some (pyStr v)

/-- A record as emitted by the stream: a Python dict from column name to a
string or `None`, modelled as a key-unique association list in insertion
order. -/
def Record := List (String × Option String)

instance : DecidableEq Record := by
  unfold Record; infer_instance

/-- Keys of a record dict, in insertion order. -/
def Record.keys (r : Record) : List String :=
  r.map (·.1)

/-- Lookup of a key in a record dict: `some v` when the key is present with
value `v`, `none` when the key is absent. -/
def getValue (r : Record) (k : String) : Option (Option String) :=
  match r with
  | [] => none
  | (k', v) :: rest => if k' = k then some v else getValue rest k

/-- Python dict assignment `d[k] = v`: replaces the value at an existing key in
place (keeping its position) or appends the key at the end. -/
def setKey (r : Record) (k : String) (v : Option String) : Record :=
  match r with
  | [] => [(k, v)]
  | (k', v') :: rest => if k' = k then (k, v) :: rest else (k', v') :: setKey rest k v

/-- The pairing of header names with a data row's values performed by
`csv.DictReader`: a missing trailing value becomes `None` (the default
`restval`); extra values beyond the header are collected under the non-string
`restkey` key and are outside this string-keyed model. -/
def zipPairs : List String → List String → List (String × Option String)
  | [], _ => []
  | h :: hs, [] => (h, none) :: zipPairs hs []
  | h :: hs, v :: vs => (h, some v) :: zipPairs hs vs

/-- Python dict construction from a sequence of pairs: first occurrence fixes
the position of a key, a later pair with the same key overwrites the value. -/
def dictInsert (r : Record) (k : String) (v : Option String) : Record :=
  setKey r k v

/-- Build the `row` dict of `csv.DictReader` from the pair sequence. -/
def buildDict (pairs : List (String × Option String)) : Record :=
  pairs.foldl (fun r p => dictInsert r p.1 p.2) []

/-- The dict comprehension of `_iterate_csv` line 131 applied to a row dict. -/
def cleanDict (r : Record) : Record :=
  r.map (fun p => (p.1, clean_value p.2))

/-- The `clean_row` value of `_iterate_csv` lines 131-132 for one parsed row:
clean every value, then assign `clean_row["last_modified"] =
last_modified.isoformat()`. -/
def clean_row (header : List String) (vals : List String) (lm : Datetime) : Record :=
  setKey (cleanDict (buildDict (zipPairs header vals))) "last_modified" (some lm.isoformat)

/-- What `csv.DictReader` observes in a file body: a header row and data rows,
or content whose UTF-8 decode / header read fails. -/
inductive FileData where
  | tabular (header : List String) (rows : List (List String))
  | undecodable
  deriving DecidableEq, Repr

/-- A named entry of a ZIP container, as enumerated by `zipfile.namelist()`. -/
structure ZipEntry where
  name : String
  data : FileData
  deriving DecidableEq, Repr

/-- An S3 object body: a byte blob with its two partial interpretations.
`asZip` is `some entries` when `zipfile.ZipFile` accepts the bytes and `none`
when it raises `BadZipFile`; `asFile` is what CSV-parsing the bytes sees. -/
structure S3Body where
  asZip : Option (List ZipEntry)
  asFile : FileData
  deriving DecidableEq, Repr

/-- A listed S3 object: its key, its `LastModified` timestamp from the listing,
and the body `get_object` would return for the key. -/
structure S3Object where
  key : String
  last_modified : Datetime
  body : S3Body
  deriving DecidableEq, Repr

/-- Output of a generator segment: the records yielded before any abort, and
the exception that aborted it, if any. -/
structure RunOut where
  records : List Record
  aborted : Option String
  downloads : List String
  deriving DecidableEq

/-- The empty generator segment. -/
def emptyOut : RunOut :=
  { records := [], aborted := none, downloads := [] }

/-- Sequencing of two generator segments: if the first raises, the second never
runs; otherwise outputs concatenate. -/
def runSeq (a b : RunOut) : RunOut :=
  match a.aborted with
  | some _ => a
  | none => { records := a.records ++ b.records, aborted := b.aborted,
              downloads := a.downloads ++ b.downloads }

/-- `_iterate_csv` (lines 126-133) on one tabular byte stream: wrap in a UTF-8
text stream, parse with `csv.DictReader`, and yield one cleaned row dict per
data row; an undecodable stream raises before yielding anything. -/
def iterate_csv (d : FileData) (lm : Datetime) : List Record × Option String :=
  match d with
  | .tabular header rows => (rows.map (fun vals => clean_row header vals lm), none)
  | .undecodable => ([], some "UnicodeDecodeError")

/-- Sequencing of two yielded-prefix/abort pairs, as for `RunOut`. -/
def seq2 (a b : List Record × Option String) : List Record × Option String :=
  match a.2 with
  | some _ => a
  | none => (a.1 ++ b.1, b.2)

/-- `_process_zip` (lines 114-121) given the container's entry list: iterate
`namelist()` in order, skip entries whose name does not end in ".csv", and
stream `_iterate_csv` over each remaining entry. -/
def process_zip_entries (entries : List ZipEntry) (lm : Datetime) :
    List Record × Option String :=
  match entries with
  | [] => ([], none)
  | e :: rest =>
    if strEndsWith e.name ".csv" then
      seq2 (iterate_csv e.data lm) (process_zip_entries rest lm)
    else
      process_zip_entries rest lm

/-- The per-object dispatch of `get_records` lines 109-112 applied to a fetched
body: keys ending ".zip" go through `_process_zip` (raising `BadZipFile` on an
invalid container), keys ending ".csv" through `_process_csv` /
`_iterate_csv`, and any other key yields nothing. -/
def processBody (key : String) (body : S3Body) (lm : Datetime) :
    List Record × Option String :=
  if strEndsWith key ".zip" then
    match body.asZip with
    | some entries => process_zip_entries entries lm
    | none => ([], some "BadZipFile")
  else if strEndsWith key ".csv" then
    iterate_csv body.asFile lm
  else
    ([], none)

/-- The `start_date` filter of `get_records` lines 102-104: an object is
processed when no `start_date` is configured, or when `last_modified` is
strictly greater than it (`continue` on `last_modified <= start_date`). -/
def eligible (start_date : Option Datetime) (lm : Datetime) : Bool :=
  match start_date with
  | none => true
  | some w => !(lm.leb w)

/-- One loop iteration of `get_records` lines 98-112 for a single listed
object: skip it when filtered, otherwise fetch its body with `get_object`
(recorded in `downloads`) and dispatch on the key suffix. -/
def stepObject (start_date : Option Datetime) (o : S3Object) : RunOut :=
  if eligible start_date o.last_modified then
    { records := (processBody o.key o.body o.last_modified).1,
      aborted := (processBody o.key o.body o.last_modified).2,
      downloads := [o.key] }
  else
    emptyOut

/-- `get_records` (lines 91-112) applied to the catalog listing obtained from
the paginator: the object loop, as a generator that stops at the first
uncaught exception. -/
def get_records_cat (start_date : Option Datetime) : List S3Object → RunOut
  | [] => emptyOut
  | o :: rest => runSeq (stepObject start_date o) (get_records_cat start_date rest)

/-- `_get_sample_csv_key` (lines 135-144) applied to the catalog listing: the
key of the first listed object whose key ends in ".csv"; object bodies are
never opened here. -/
def get_sample_csv_key (catalog : List S3Object) : Option String :=
  match catalog with
  | [] => none
  | o :: rest =>
    if strEndsWith o.key ".csv" then some o.key else get_sample_csv_key rest

/-- Recursion for `pandasMangle`: `seen` holds the header names already
emitted, in order. -/
def pandasMangleGo (seen : List String) : List String → List String
  | [] => []
  | n :: rest =>
    (if seen.count n = 0 then n else n ++ "." ++ toString (seen.count n)) ::
      pandasMangleGo (seen ++ [n]) rest

/-- The column labels `pandas.read_csv` derives from a header row: names in
header order, with the k-th repetition of a name relabelled `name.k` (pandas
duplicate-column mangling) rather than dropped. -/
def pandasMangle (names : List String) : List String :=
  pandasMangleGo [] names

/-- The `df.columns` that `pd.read_csv` yields on one byte stream: the mangled
header labels, or a parse error on undecodable content. -/
def dfColumns (d : FileData) : Except String (List String) :=
  match d with
  | .tabular header _ => .ok (pandasMangle header)
  | .undecodable => .error "UnicodeDecodeError"

/-- Append a label if not already present, keeping first-appearance order. -/
def unionInsert (acc : List String) (n : String) : List String :=
  if n ∈ acc then acc else acc ++ [n]

/-- Column labels of `pd.concat(df_list, ignore_index=True)`: the union of the
frames' labels in order of first appearance. -/
def concatColumns (dfs : List (List String)) : List String :=
  dfs.foldl (fun acc df => df.foldl unionInsert acc) []

/-- Traverse `dfColumns` over entries, propagating the first parse error, as
the list comprehension of `_download_csv_to_df` line 74 does. -/
def dfColumnsList : List ZipEntry → Except String (List (List String))
  | [] => .ok []
  | e :: rest =>
    match dfColumns e.data with
    | .error msg => .error msg
    | .ok cols =>
      match dfColumnsList rest with
      | .error msg => .error msg
      | .ok colss => .ok (cols :: colss)

/-- `_download_csv_to_df` (lines 64-79) restricted to the column labels of the
resulting frame: for a ".zip" key, read every ".csv" entry and concatenate
(raising when the container is invalid or holds no CSV entry); otherwise
`pd.read_csv` the body directly. -/
def download_csv_columns (o : S3Object) : Except String (List String) :=
  if strEndsWith o.key ".zip" then
    match o.body.asZip with
    | none => .error "BadZipFile"
    | some entries =>
      let csv_files := entries.filter (fun e => strEndsWith e.name ".csv")
      if csv_files = [] then .error ("No CSV files found in ZIP: " ++ o.key)
      else
        match dfColumnsList csv_files with
        | .error msg => .error msg
        | .ok colss => .ok (concatColumns colss)
  else
    dfColumns o.body.asFile

/-- `get_object` on a key during schema inference: the first listed object
carrying that key. -/
def findObject (catalog : List S3Object) (k : String) : Option S3Object :=
  catalog.find? (fun o => o.key = k)

/-- The `schema` property (lines 48-62) applied to the catalog listing,
restricted to the ordered property names it declares: the sampled file's
column labels with "last_modified" appended, or only "last_modified" when no
sample file is found. A missing object for the sampled key or malformed
sample content raises out of the property. -/
def schema_columns (catalog : List S3Object) : Except String (List String) :=
  match get_sample_csv_key catalog with
  | none => .ok ["last_modified"]
  | some k =>
    match findObject catalog k with
    | none => .error "NoSuchKey"
    | some o =>
      match download_csv_columns o with
      | .error msg => .error msg
      | .ok cols => .ok (cols ++ ["last_modified"])

/-- Whether the `schema` property logs its "No sample file found" warning:
exactly when the sampler comes back empty (line 51-52). -/
def schema_warned (catalog : List S3Object) : Bool :=
  (get_sample_csv_key catalog).isNone

/-- The object store as seen through listing queries: `listings n` is the
listing returned by the (n+1)-th `list_objects_v2` pagination issued during
the run (the store may change between queries). -/
structure Store where
  listings : Nat → List S3Object

/-- One listing query: `_get_s3_client()` builds a fresh client and
`get_paginator(...).paginate(...)` drains one listing; the counter records how
many listing queries have been issued. -/
def listObjectsQ (st : Store) (n : Nat) : List S3Object × Nat :=
  (st.listings n, n + 1)

/-- `_get_sample_csv_key` as executed: it issues its own listing query
(lines 139-140) and scans the result. -/
def sampleKeyQ (st : Store) (n : Nat) : Option String × Nat :=
  let (cat, n') := listObjectsQ st n
  (get_sample_csv_key cat, n')

/-- `get_records` as executed: it issues its own listing query (lines 96-97)
and streams over the result. -/
def getRecordsQ (start_date : Option Datetime) (st : Store) (n : Nat) : RunOut × Nat :=
  let (cat, n') := listObjectsQ st n
  (get_records_cat start_date cat, n')

/-- One run as the harness drives it: schema inference first (whose sampler
lists the store), then record extraction (which lists it again). Returns the
sampled key, the extraction output, and the number of listing queries
issued. -/
def fullRun (start_date : Option Datetime) (st : Store) :
    (Option String × RunOut) × Nat :=
  let (sample, n1) := sampleKeyQ st 0
  let (out, n2) := getRecordsQ start_date st n1
  ((sample, out), n2)

/-- The ZIP entries of a body, the empty list when the bytes are not a valid
container. -/
def zipEntriesOf (b : S3Body) : List ZipEntry :=
  b.asZip.getD []

/-! Concrete fixtures used by witnesses and counterexamples. -/

/-- The `last_modified` timestamp of the spec's end-to-end scenario. -/
def dt1 : Datetime := ⟨2024, 1, 2, 0, 0, 0⟩

/-- A watermark strictly below `dt1`. -/
def wmark : Datetime := ⟨2024, 1, 1, 0, 0, 0⟩

/-- A plain-text object: eligible, but neither ".csv" nor ".zip". -/
def plainTextObj : S3Object := ⟨"notes.txt", dt1, ⟨none, .undecodable⟩⟩

/-- A CSV object with header `id,name` and two data rows. -/
def sampleCsvObj : S3Object :=
  ⟨"data/2024-01-01.csv", dt1, ⟨none, .tabular ["id", "name"] [["1", "a"], ["2", "b"]]⟩⟩

/-- A CSV object whose content fails to decode. -/
def badCsvObj : S3Object := ⟨"bad.csv", dt1, ⟨none, .undecodable⟩⟩

/-- A well-formed single-column CSV object with one data row. -/
def goodCsvObj : S3Object := ⟨"good.csv", dt1, ⟨none, .tabular ["a"] [["1"]]⟩⟩

/-- A CSV object whose header differs from `goodCsvObj`. -/
def otherCsvObj : S3Object := ⟨"t.csv", dt1, ⟨none, .tabular ["b"] [["2"]]⟩⟩

/-- A CSV object with a duplicated header name. -/
def dupHeaderObj : S3Object := ⟨"d.csv", dt1, ⟨none, .tabular ["a", "a"] [["1", "2"]]⟩⟩

/-- A ZIP object holding one tabular entry with header `c1`; no ".csv" key
anywhere near it. -/
def archiveOnlyObj : S3Object :=
  ⟨"data/archive.zip", dt1, ⟨some [⟨"x.csv", .tabular ["c1"] [["v"]]⟩], .undecodable⟩⟩

/-- A ZIP object holding only a non-tabular entry. -/
def emptyArchiveObj : S3Object :=
  ⟨"data/empty.zip", dt1, ⟨some [⟨"readme.txt", .undecodable⟩], .undecodable⟩⟩

/-- First tabular entry of the two-entry archive scenario. -/
def zipEntryA : ZipEntry := ⟨"a.csv", .tabular ["x"] [["1"]]⟩

/-- Second tabular entry of the two-entry archive scenario. -/
def zipEntryB : ZipEntry := ⟨"b.csv", .tabular ["y"] [["2"]]⟩

/-- A store whose listing changes between the first and the second query. -/
def changingStore : Store :=
  ⟨fun n => if n = 0 then [goodCsvObj] else [otherCsvObj]⟩

/-- A store whose listing never changes. -/
def steadyStore : Store :=
  ⟨fun _ => [goodCsvObj]⟩

/-! Helper lemmas about the record dict operations. -/

theorem getValue_setKey_self (r : Record) (k : String) (v : Option String) :
    getValue (setKey r k v) k = some v := by
  induction r with
  | nil => simp [setKey, getValue]
  | cons p rest ih =>
    obtain ⟨k', v'⟩ := p
    by_cases h : k' = k
    · simp [setKey, h, getValue]
    · simp [setKey, h, getValue, ih]

theorem getValue_setKey_ne (r : Record) (k : String) (v : Option String)
    (k' : String) (h : k' ≠ k) : getValue (setKey r k v) k' = getValue r k' := by
  have hne : ¬k = k' := fun hk => h hk.symm
  induction r with
  | nil => simp [setKey, getValue, hne]
  | cons p rest ih =>
    obtain ⟨a, b⟩ := p
    by_cases ha : a = k
    · subst ha
      simp [setKey, getValue, hne]
    · by_cases ha' : a = k'
      · simp [setKey, ha, getValue, ha', hne, h]
      · simp [setKey, ha, getValue, ha', ih]

theorem getValue_cleanDict (r : Record) (k : String) :
    getValue (cleanDict r) k = (getValue r k).map clean_value := by
  induction r with
  | nil => simp [cleanDict, getValue]
  | cons p rest ih =>
    obtain ⟨a, b⟩ := p
    by_cases ha : a = k
    · simp [cleanDict, getValue, ha]
    · simpa [cleanDict, getValue, ha] using ih

theorem getValue_clean_row_lm (header vals : List String) (lm : Datetime) :
    getValue (clean_row header vals lm) "last_modified" = some (some lm.isoformat) :=
  getValue_setKey_self _ _ _

theorem keys_zipPairs (header : List String) (vals : List String) :
    (zipPairs header vals).map (fun p => p.1) = header := by
  induction header generalizing vals with
  | nil => simp [zipPairs]
  | cons h hs ih =>
    cases vals with
    | nil => simp [zipPairs, ih]
    | cons v vs => simp [zipPairs, ih]

theorem keys_cons (a : String) (b : Option String) (l : Record) :
    Record.keys ((a, b) :: l) = a :: Record.keys l := rfl

theorem mem_keys_setKey (r : Record) (k : String) (v : Option String)
    (k' : String) (h : k' ∈ Record.keys (setKey r k v)) :
    k' ∈ Record.keys r ∨ k' = k := by
  induction r with
  | nil =>
    rw [show setKey [] k v = [(k, v)] from rfl, keys_cons] at h
    rcases List.mem_cons.mp h with h | h
    · exact Or.inr h
    · exact absurd h (by simp [Record.keys])
  | cons p rest ih =>
    obtain ⟨a, b⟩ := p
    by_cases ha : a = k
    · rw [show setKey ((a, b) :: rest) k v = (k, v) :: rest by simp [setKey, ha],
        keys_cons] at h
      rcases List.mem_cons.mp h with h | h
      · exact Or.inr h
      · exact Or.inl (by rw [keys_cons]; exact List.mem_cons_of_mem _ h)
    · rw [show setKey ((a, b) :: rest) k v = (a, b) :: setKey rest k v by
        simp [setKey, ha], keys_cons] at h
      rcases List.mem_cons.mp h with h | h
      · exact Or.inl (by rw [keys_cons]; exact h ▸ List.mem_cons_self _ _)
      · rcases ih h with h' | h'
        · exact Or.inl (by rw [keys_cons]; exact List.mem_cons_of_mem _ h')
        · exact Or.inr h'

theorem mem_keys_foldl_dictInsert (pairs : List (String × Option String))
    (k : String) :
    ∀ r : Record,
      k ∈ Record.keys (pairs.foldl (fun acc p => dictInsert acc p.1 p.2) r) →
      k ∈ Record.keys r ∨ k ∈ pairs.map (fun p => p.1) := by
  induction pairs with
  | nil => exact fun r h => Or.inl h
  | cons p rest ih =>
    intro r h
    simp only [List.foldl_cons] at h
    rcases ih (dictInsert r p.1 p.2) h with h' | h'
    · simp only [dictInsert] at h'
      rcases mem_keys_setKey r p.1 p.2 k h' with h'' | h''
      · exact Or.inl h''
      · exact Or.inr (by simp [h''])
    · exact Or.inr (by simpa using Or.inr h')

theorem keys_cleanDict (r : Record) :
    Record.keys (cleanDict r) = Record.keys r := by
  simp [Record.keys, cleanDict]

theorem mem_keys_clean_row (header vals : List String) (lm : Datetime)
    (k : String) (h : k ∈ Record.keys (clean_row header vals lm)) :
    k ∈ header ∨ k = "last_modified" := by
  unfold clean_row at h
  rcases mem_keys_setKey _ _ _ _ h with h' | h'
  · rw [keys_cleanDict] at h'
    rcases mem_keys_foldl_dictInsert _ _ _ h' with h'' | h''
    · simp [Record.keys] at h''
    · rw [keys_zipPairs] at h''
      exact Or.inl h''
  · exact Or.inr h'

/-! Helper lemmas about the generator combinators and record provenance. -/

theorem runSeq_emptyOut (b : RunOut) : runSeq emptyOut b = b := by
  simp [runSeq, emptyOut]

theorem runSeq_aborted (a b : RunOut) (e : String) (h : a.aborted = some e) :
    runSeq a b = a := by
  simp [runSeq, h]

theorem stepObject_ineligible (sd : Option Datetime) (o : S3Object)
    (h : eligible sd o.last_modified = false) : stepObject sd o = emptyOut := by
  simp [stepObject, h]

theorem mem_records_iterate_csv (d : FileData) (lm : Datetime) (r : Record)
    (h : r ∈ (iterate_csv d lm).1) :
    ∃ header vals, r = clean_row header vals lm := by
  cases d with
  | tabular header rows =>
    simp [iterate_csv] at h
    obtain ⟨vals, _, hv⟩ := h
    exact ⟨header, vals, hv.symm⟩
  | undecodable => simp [iterate_csv] at h

theorem mem_records_seq2 (a b : List Record × Option String) (r : Record)
    (h : r ∈ (seq2 a b).1) : r ∈ a.1 ∨ r ∈ b.1 := by
  unfold seq2 at h
  cases ha : a.2 with
  | some e => rw [ha] at h; exact Or.inl h
  | none =>
    rw [ha] at h
    simpa using List.mem_append.mp h

theorem mem_records_process_zip (entries : List ZipEntry) (lm : Datetime)
    (r : Record) (h : r ∈ (process_zip_entries entries lm).1) :
    ∃ header vals, r = clean_row header vals lm := by
  induction entries with
  | nil => simp [process_zip_entries] at h
  | cons e rest ih =>
    unfold process_zip_entries at h
    by_cases hc : strEndsWith e.name ".csv"
    · rw [if_pos hc] at h
      rcases mem_records_seq2 _ _ _ h with h' | h'
      · exact mem_records_iterate_csv _ _ _ h'
      · exact ih h'
    · rw [if_neg hc] at h
      exact ih h

theorem mem_records_processBody (key : String) (body : S3Body) (lm : Datetime)
    (r : Record) (h : r ∈ (processBody key body lm).1) :
    ∃ header vals, r = clean_row header vals lm := by
  unfold processBody at h
  by_cases hz : strEndsWith key ".zip"
  · rw [if_pos hz] at h
    cases hb : body.asZip with
    | some entries => rw [hb] at h; exact mem_records_process_zip _ _ _ h
    | none => rw [hb] at h; simp at h
  · rw [if_neg hz] at h
    by_cases hc : strEndsWith key ".csv"
    · rw [if_pos hc] at h
      exact mem_records_iterate_csv _ _ _ h
    · rw [if_neg hc] at h
      simp at h

theorem mem_records_runSeq (a b : RunOut) (r : Record)
    (h : r ∈ (runSeq a b).records) : r ∈ a.records ∨ r ∈ b.records := by
  unfold runSeq at h
  cases ha : a.aborted with
  | some e => rw [ha] at h; exact Or.inl h
  | none =>
    rw [ha] at h
    simpa using List.mem_append.mp h

theorem mem_records_stepObject (sd : Option Datetime) (o : S3Object) (r : Record)
    (h : r ∈ (stepObject sd o).records) :
    ∃ header vals, r = clean_row header vals o.last_modified := by
  unfold stepObject at h
  by_cases he : eligible sd o.last_modified
  · rw [if_pos he] at h
    exact mem_records_processBody _ _ _ _ h
  · rw [if_neg he] at h
    simp [emptyOut] at h

theorem mem_records_run (sd : Option Datetime) (cat : List S3Object) (r : Record)
    (h : r ∈ (get_records_cat sd cat).records) :
    ∃ header vals lm, r = clean_row header vals lm := by
  induction cat with
  | nil => simp [get_records_cat, emptyOut] at h
  | cons o rest ih =>
    unfold get_records_cat at h
    rcases mem_records_runSeq _ _ _ h with h' | h'
    · obtain ⟨header, vals, hv⟩ := mem_records_stepObject _ _ _ h'
      exact ⟨header, vals, o.last_modified, hv⟩
    · exact ih h'

/-! Helper lemmas about the sampler and schema. -/

theorem sample_none_of_no_csv (cat : List S3Object)
    (h : ∀ o ∈ cat, strEndsWith o.key ".csv" = false) :
    get_sample_csv_key cat = none := by
  induction cat with
  | nil => rfl
  | cons o rest ih =>
    have ho := h o (by simp)
    simp only [get_sample_csv_key, ho]
    exact ih (fun o' ho' => h o' (by simp [ho']))

theorem no_csv_of_sample_none (cat : List S3Object)
    (h : get_sample_csv_key cat = none) :
    ∀ o ∈ cat, strEndsWith o.key ".csv" = false := by
  induction cat with
  | nil => simp
  | cons o rest ih =>
    unfold get_sample_csv_key at h
    by_cases hc : strEndsWith o.key ".csv"
    · rw [if_pos hc] at h; exact absurd h (by simp)
    · rw [if_neg hc] at h
      intro o' ho'
      rcases List.mem_cons.mp ho' with h' | h'
      · rw [h']; exact Bool.eq_false_iff.mpr hc
      · exact ih h o' h'

theorem pandasMangleGo_length (seen names : List String) :
    (pandasMangleGo seen names).length = names.length := by
  induction names generalizing seen with
  | nil => rfl
  | cons n rest ih => simp [pandasMangleGo, ih]

theorem get_records_cat_filter (sd : Option Datetime) (cat : List S3Object) :
    get_records_cat sd cat =
      get_records_cat sd (cat.filter (fun o => eligible sd o.last_modified)) := by
  induction cat with
  | nil => rfl
  | cons o rest ih =>
    by_cases he : eligible sd o.last_modified
    · simp [get_records_cat, List.filter_cons, he, ih]
    · have h0 : stepObject sd o = emptyOut :=
        stepObject_ineligible sd o (by simpa using he)
      simp [get_records_cat, List.filter_cons, he, h0, runSeq_emptyOut, ih]

theorem pandasMangleGo_nodup (names : List String) :
    ∀ seen : List String, (∀ n ∈ names, n ∉ seen) → names.Nodup →
    pandasMangleGo seen names = names := by
  induction names with
  | nil => intro seen _ _; rfl
  | cons n rest ih =>
    intro seen hseen hnodup
    have hcount : seen.count n = 0 :=
      List.count_eq_zero.mpr (hseen n (by simp))
    simp only [pandasMangleGo, hcount, if_pos, List.cons.injEq, true_and]
    refine ih (seen ++ [n]) ?_ (List.Nodup.of_cons hnodup)
    intro m hm
    simp only [List.mem_append, List.mem_singleton]
    rintro (h' | h')
    · exact hseen m (by simp [hm]) h'
    · rw [h'] at hm
      exact (List.nodup_cons.mp hnodup).1 hm

/-! Claim theorems. -/

/-- C1 counterexample: the claimed equivalence "a Record from the object
appears in the output iff its `last_modified` is strictly greater than the
watermark" fails at a concrete input: `plainTextObj` is strictly newer than
the watermark (so it is eligible), yet the run emits no Record from it,
because its key ends in neither ".csv" nor ".zip". -/
theorem C1_cursor_filter_counterexample :
    ¬(((get_records_cat (some wmark) [plainTextObj]).records ≠ []) ↔
      eligible (some wmark) plainTextObj.last_modified = true) := by
  decide

/-- C1 amended: the filter direction of the claim holds. An object whose
`last_modified` is less than or equal to the watermark (equality included) is
skipped entirely and contributes nothing to the run; when the watermark is
absent every object passes the filter; and objects failing the filter can be
removed from the catalog without changing the run output. Eligibility alone,
however, does not guarantee that a Record appears. -/
theorem C1_cursor_filter :
    (∀ (w : Datetime) (o : S3Object), o.last_modified.leb w = true →
      stepObject (some w) o = emptyOut) ∧
    (∀ o : S3Object, eligible none o.last_modified = true) ∧
    (∀ (sd : Option Datetime) (cat : List S3Object),
      get_records_cat sd cat =
        get_records_cat sd (cat.filter (fun o => eligible sd o.last_modified))) := by
  refine ⟨?_, ?_, get_records_cat_filter⟩
  · intro w o h
    exact stepObject_ineligible (some w) o (by simp [eligible, h])
  · intro o
    rfl

/-- C1 witness: at the exact boundary (`last_modified` equal to the
watermark), the object is skipped. -/
theorem C1_cursor_filter_witness :
    sampleCsvObj.last_modified.leb dt1 = true ∧
      stepObject (some dt1) sampleCsvObj = emptyOut :=
  ⟨by decide, C1_cursor_filter.1 dt1 sampleCsvObj (by decide)⟩

/-- C2 counterexample: with a malformed ".csv" object followed by a
well-formed one, the run stops at the malformed object and emits nothing at
all, although the well-formed object on its own yields a Record — the failure
is not "fatal for that object only" and the pipeline does not continue. -/
theorem C2_error_handling_counterexample :
    get_records_cat none [badCsvObj, goodCsvObj] =
      { records := [], aborted := some "UnicodeDecodeError",
        downloads := ["bad.csv"] } ∧
    (get_records_cat none [goodCsvObj]).records ≠ [] := by
  constructor
  · rfl
  · decide

/-- C2 amended: malformed tabular content is fatal for the whole run, not for
the object alone. `get_records` wraps no handler around per-object
processing: once an object's processing raises, the generator stops and no
Record from any later object is emitted; the object key is not attached to
the propagated error (it appears only in the pre-download log line). -/
theorem C2_error_handling :
    (∀ (sd : Option Datetime) (o : S3Object) (rest : List S3Object) (e : String),
      (stepObject sd o).aborted = some e →
      get_records_cat sd (o :: rest) = stepObject sd o) ∧
    (∀ (sd : Option Datetime) (key : String) (lm : Datetime) (body : S3Body)
        (rest : List S3Object),
      strEndsWith key ".zip" = false → strEndsWith key ".csv" = true →
      eligible sd lm = true → body.asFile = .undecodable →
      get_records_cat sd (⟨key, lm, body⟩ :: rest) =
        { records := [], aborted := some "UnicodeDecodeError",
          downloads := [key] }) := by
  constructor
  · intro sd o rest e h
    simp only [get_records_cat]
    exact runSeq_aborted _ _ _ h
  · intro sd key lm body rest hz hc he hf
    have hstep : stepObject sd ⟨key, lm, body⟩ =
        { records := [], aborted := some "UnicodeDecodeError",
          downloads := [key] } := by
      simp [stepObject, he, processBody, hz, hc, iterate_csv, hf]
    simp only [get_records_cat, hstep]
    exact runSeq_aborted _ _ "UnicodeDecodeError" rfl

/-- C2 witness: the amended statement applied to the concrete two-object
catalog of the counterexample. -/
theorem C2_error_handling_witness :
    get_records_cat none [badCsvObj, goodCsvObj] =
      { records := [], aborted := some "UnicodeDecodeError",
        downloads := ["bad.csv"] } :=
  C2_error_handling.2 none "bad.csv" dt1 ⟨none, .undecodable⟩ [goodCsvObj]
    (by decide) (by decide) rfl rfl

/-- C10: an object that passes the watermark filter but whose key ends in
neither ".csv" nor ".zip" is fetched from the store (its key is recorded in
the download log before the suffix dispatch) yet yields zero Records and
raises nothing, and the run continues with the remaining objects
unchanged. -/
theorem C10_other_suffix_skip :
    ∀ (sd : Option Datetime) (o : S3Object) (rest : List S3Object),
      eligible sd o.last_modified = true →
      strEndsWith o.key ".zip" = false →
      strEndsWith o.key ".csv" = false →
      stepObject sd o =
        { records := [], aborted := none, downloads := [o.key] } ∧
      get_records_cat sd (o :: rest) =
        { records := (get_records_cat sd rest).records,
          aborted := (get_records_cat sd rest).aborted,
          downloads := o.key :: (get_records_cat sd rest).downloads } := by
  intro sd o rest he hz hc
  have hstep : stepObject sd o =
      { records := [], aborted := none, downloads := [o.key] } := by
    simp [stepObject, he, processBody, hz, hc]
  refine ⟨hstep, ?_⟩
  simp [get_records_cat, hstep, runSeq]

/-- C10 witness: the eligible plain-text object is downloaded, yields no
Record and no error. -/
theorem C10_other_suffix_skip_witness :
    stepObject (some wmark) plainTextObj =
      { records := [], aborted := none, downloads := ["notes.txt"] } :=
  (C10_other_suffix_skip (some wmark) plainTextObj [] (by decide) (by decide)
    (by decide)).1

/-- C3 counterexample: a catalog whose only object is an archive containing a
CSV entry with header `c1`. The sampler returns no sample at all — it never
looks inside archives — and the schema falls back to the replication field
only, instead of being inferred from the archive entry's header as the claim
states. -/
theorem C3_sampler_counterexample :
    get_sample_csv_key [archiveOnlyObj] = none ∧
    schema_columns [archiveOnlyObj] = Except.ok ["last_modified"] ∧
    "c1" ∉ (["last_modified"] : List String) :=
  ⟨rfl, rfl, by decide⟩

/-- C3 amended: the Schema Sampler selects the first StoredObject in catalog
order whose key ends in ".csv", and nothing else: it returns no sample
exactly when no listed key has that suffix, its choice is invariant under any
replacement of the object bodies (archives are never opened), and when a
prefix of non-CSV keys is followed by a CSV key, that first CSV key is the
sample. -/
theorem C3_sampler_first_csv :
    (∀ cat : List S3Object,
      get_sample_csv_key cat = none ↔
        ∀ o ∈ cat, strEndsWith o.key ".csv" = false) ∧
    (∀ (cat : List S3Object) (f : S3Body → S3Body),
      get_sample_csv_key (cat.map (fun o => ⟨o.key, o.last_modified, f o.body⟩)) =
        get_sample_csv_key cat) ∧
    (∀ (pre : List S3Object) (o : S3Object) (post : List S3Object),
      (∀ p ∈ pre, strEndsWith p.key ".csv" = false) →
      strEndsWith o.key ".csv" = true →
      get_sample_csv_key (pre ++ o :: post) = some o.key) := by
  refine ⟨fun cat => ⟨no_csv_of_sample_none cat, sample_none_of_no_csv cat⟩, ?_, ?_⟩
  · intro cat f
    induction cat with
    | nil => rfl
    | cons o rest ih => simp [get_sample_csv_key, ih]
  · intro pre o post hpre ho
    induction pre with
    | nil => simp [get_sample_csv_key, ho]
    | cons p rest ih =>
      have hp := hpre p (by simp)
      simp only [List.cons_append, get_sample_csv_key, hp, Bool.false_eq_true,
        if_false]
      exact ih (fun q hq => hpre q (by simp [hq]))

/-- C3 witness: with a non-CSV key first, the sampler picks the first CSV
key. -/
theorem C3_sampler_first_csv_witness :
    get_sample_csv_key [plainTextObj, sampleCsvObj, otherCsvObj] =
      some "data/2024-01-01.csv" :=
  C3_sampler_first_csv.2.2 [plainTextObj] sampleCsvObj [otherCsvObj]
    (by decide) (by decide)

/-- C7 counterexample: a sample file whose header repeats the name `a`. The
inferred columns are `a, a.1, last_modified` — pandas relabels the duplicate
rather than deduplicating it to a single occurrence as the claim states. -/
theorem C7_schema_dedup_counterexample :
    schema_columns [dupHeaderObj] = Except.ok ["a", "a.1", "last_modified"] ∧
    (["a", "a.1", "last_modified"] : List String) ≠ ["a", "last_modified"] :=
  ⟨rfl, by decide⟩

/-- C7 amended: for a tabular sample file, `Schema.columns` is the sample
header's field names in header order with pandas duplicate-mangling applied
(the k-th repetition of a name is relabelled `name.k`, so a repeated name
contributes one column per occurrence, not once), with the replication field
appended last; when the header has no repeated name the columns are exactly
the header names. (The implementation parses the sample's full body to build
the frame, but the columns depend only on the header.) -/
theorem C7_schema_from_sample_header :
    (∀ (cat : List S3Object) (k : String) (o : S3Object) (header : List String)
        (rows : List (List String)),
      get_sample_csv_key cat = some k →
      findObject cat k = some o →
      strEndsWith o.key ".zip" = false →
      o.body.asFile = .tabular header rows →
      schema_columns cat = .ok (pandasMangle header ++ ["last_modified"])) ∧
    (∀ names : List String, (pandasMangle names).length = names.length) ∧
    (∀ names : List String, names.Nodup → pandasMangle names = names) := by
  refine ⟨?_, fun names => pandasMangleGo_length [] names,
    fun names h => pandasMangleGo_nodup names [] (by simp) h⟩
  intro cat k o header rows hs hf hz hb
  simp [schema_columns, hs, hf, download_csv_columns, hz, dfColumns, hb]

/-- C7 witness: the amended statement at a concrete single-column sample. -/
theorem C7_schema_from_sample_header_witness :
    schema_columns [goodCsvObj] =
      Except.ok (pandasMangle ["a"] ++ ["last_modified"]) :=
  C7_schema_from_sample_header.1 [goodCsvObj] "good.csv" goodCsvObj ["a"]
    [["1"]] (by decide) (by decide) (by decide) rfl

/-- C8: when no listed key ends in ".csv" and no archive entry does either
(no tabular file anywhere), the schema is the minimal one containing only the
replication field, the "no sample file" warning is logged, and no error is
raised. -/
theorem C8_schema_fallback :
    ∀ cat : List S3Object,
      (∀ o ∈ cat, strEndsWith o.key ".csv" = false ∧
        ∀ e ∈ zipEntriesOf o.body, strEndsWith e.name ".csv" = false) →
      schema_columns cat = .ok ["last_modified"] ∧ schema_warned cat = true := by
  intro cat h
  have hs : get_sample_csv_key cat = none :=
    sample_none_of_no_csv cat (fun o ho => (h o ho).1)
  exact ⟨by simp [schema_columns, hs], by simp [schema_warned, hs]⟩

/-- C8 witness: a catalog holding a plain-text object and an archive with
only a non-tabular entry. -/
theorem C8_schema_fallback_witness :
    schema_columns [plainTextObj, emptyArchiveObj] = .ok ["last_modified"] ∧
      schema_warned [plainTextObj, emptyArchiveObj] = true :=
  C8_schema_fallback [plainTextObj, emptyArchiveObj] (by decide)

/-- C4: row normalization. The replication field of every normalized row is
the owning object's `last_modified` rendered by `isoformat` (which carries
the `+00:00` timezone suffix), overriding any same-named data column; every
other key holds the cleaned raw value, where a present value passes through
Python `str` and an absent/null value stays null — it never becomes the
literal text "None". -/
theorem C4_normalize :
    ∀ (header vals : List String) (lm : Datetime),
      getValue (clean_row header vals lm) "last_modified" =
        some (some lm.isoformat) ∧
      (∃ s, lm.isoformat = s ++ "+00:00") ∧
      (∀ k, k ≠ "last_modified" →
        getValue (clean_row header vals lm) k =
          (getValue (buildDict (zipPairs header vals)) k).map clean_value) ∧
      clean_value none = none ∧
      clean_value none ≠ some (pyStr none) ∧
      (∀ s, clean_value (some s) = some (pyStr (some s))) := by
  intro header vals lm
  refine ⟨getValue_clean_row_lm header vals lm, ⟨_, rfl⟩, ?_, rfl,
    by simp [clean_value], fun s => rfl⟩
  intro k hk
  unfold clean_row
  rw [getValue_setKey_ne _ _ _ _ hk, getValue_cleanDict]

/-- C4 witness: a data column distinct from the replication field keeps its
cleaned raw value. -/
theorem C4_normalize_witness :
    getValue (clean_row ["id"] ["7"] dt1) "id" =
      (getValue (buildDict (zipPairs ["id"] ["7"])) "id").map clean_value :=
  (C4_normalize ["id"] ["7"] dt1).2.2.1 "id" (by decide)

/-- C5: archive processing. A container with two entries named with the
".csv" suffix, holding N1 and N2 data rows, yields exactly N1+N2 Records,
all first-entry rows before all second-entry rows in container-listing
order, each carrying the container object's `last_modified` as replication
value; a container with no matching entry yields zero Records and raises
nothing. -/
theorem C5_zip_archive :
    (∀ (lm : Datetime) (n1 n2 : String) (h1 h2 : List String)
        (r1 r2 : List (List String)),
      strEndsWith n1 ".csv" = true → strEndsWith n2 ".csv" = true →
      process_zip_entries [⟨n1, .tabular h1 r1⟩, ⟨n2, .tabular h2 r2⟩] lm =
        (r1.map (fun v => clean_row h1 v lm) ++
          r2.map (fun v => clean_row h2 v lm), none) ∧
      (process_zip_entries [⟨n1, .tabular h1 r1⟩, ⟨n2, .tabular h2 r2⟩] lm).1.length
        = r1.length + r2.length ∧
      (∀ r ∈ (process_zip_entries [⟨n1, .tabular h1 r1⟩, ⟨n2, .tabular h2 r2⟩] lm).1,
        getValue r "last_modified" = some (some lm.isoformat))) ∧
    (∀ (entries : List ZipEntry) (lm : Datetime),
      (∀ e ∈ entries, strEndsWith e.name ".csv" = false) →
      process_zip_entries entries lm = ([], none)) := by
  constructor
  · intro lm n1 n2 h1 h2 r1 r2 hc1 hc2
    have heq : process_zip_entries [⟨n1, .tabular h1 r1⟩, ⟨n2, .tabular h2 r2⟩] lm =
        (r1.map (fun v => clean_row h1 v lm) ++
          r2.map (fun v => clean_row h2 v lm), none) := by
      simp [process_zip_entries, hc1, hc2, iterate_csv, seq2]
    refine ⟨heq, by rw [heq]; simp, ?_⟩
    intro r hr
    rw [heq] at hr
    simp only [List.mem_append, List.mem_map] at hr
    rcases hr with ⟨v, _, hv⟩ | ⟨v, _, hv⟩ <;> rw [← hv] <;>
      exact getValue_clean_row_lm _ _ _
  · intro entries lm h
    induction entries with
    | nil => rfl
    | cons e rest ih =>
      have he := h e (by simp)
      simp only [process_zip_entries, he, Bool.false_eq_true, if_false]
      exact ih (fun q hq => h q (by simp [hq]))

/-- C5 witness: the two-entry archive scenario with one row per entry, and an
archive with only a non-tabular entry. -/
theorem C5_zip_archive_witness :
    (process_zip_entries [zipEntryA, zipEntryB] dt1).1.length = 1 + 1 ∧
    process_zip_entries [⟨"readme.txt", .undecodable⟩] dt1 = ([], none) :=
  ⟨(C5_zip_archive.1 dt1 "a.csv" "b.csv" ["x"] ["y"] [["1"]] [["2"]]
      (by decide) (by decide)).2.1,
   C5_zip_archive.2 [⟨"readme.txt", .undecodable⟩] dt1 (by decide)⟩

/-- C6 counterexample: the schema is sampled from the first file (header
`a`), but a second file has header `b`; the Record built from the second
file carries the key `b`, which is not among `Schema.columns` plus the
replication field. -/
theorem C6_record_keys_counterexample :
    schema_columns [goodCsvObj, otherCsvObj] = Except.ok ["a", "last_modified"] ∧
    ∃ r, r ∈ (get_records_cat none [goodCsvObj, otherCsvObj]).records ∧
      "b" ∈ Record.keys r ∧ "b" ∉ (["a", "last_modified"] : List String) :=
  ⟨rfl, [("b", some "2"), ("last_modified", some "2024-01-02T00:00:00+00:00")],
    by decide, by decide, by decide⟩

/-- C6 amended: every Record's keys are drawn from its own file's header plus
the replication field (so the claimed subset relation with `Schema.columns`
holds only when every processed file shares the sample's header), and the
replication field is present with a non-null value in every Record any run
produces. -/
theorem C6_record_keys :
    (∀ (header vals : List String) (lm : Datetime) (k : String),
      k ∈ Record.keys (clean_row header vals lm) →
      k ∈ header ∨ k = "last_modified") ∧
    (∀ (sd : Option Datetime) (cat : List S3Object) (r : Record),
      r ∈ (get_records_cat sd cat).records →
      ∃ s, getValue r "last_modified" = some (some s)) := by
  refine ⟨mem_keys_clean_row, ?_⟩
  intro sd cat r hr
  obtain ⟨header, vals, lm, hv⟩ := mem_records_run sd cat r hr
  exact ⟨lm.isoformat, by rw [hv]; exact getValue_clean_row_lm header vals lm⟩

/-- C6 witness: the replication field of a concrete emitted Record is present
and non-null. -/
theorem C6_record_keys_witness :
    ∃ s, getValue
      [("b", some "2"), ("last_modified", some "2024-01-02T00:00:00+00:00")]
      "last_modified" = some (some s) :=
  C6_record_keys.2 none [goodCsvObj, otherCsvObj]
    [("b", some "2"), ("last_modified", some "2024-01-02T00:00:00+00:00")]
    (by decide)

/-- C9 counterexample: a run against a store whose listing changes between
queries. The run issues two listing queries, not one; schema inference
samples `good.csv` from the first listing while record extraction downloads
`t.csv` from the second — the two listings are not the same snapshot. -/
theorem C9_listing_counterexample :
    (fullRun none changingStore).2 = 2 ∧
    (fullRun none changingStore).2 ≠ 1 ∧
    (fullRun none changingStore).1.1 = some "good.csv" ∧
    (fullRun none changingStore).1.2.downloads = ["t.csv"] ∧
    changingStore.listings 0 ≠ changingStore.listings 1 :=
  ⟨rfl, by decide, rfl, rfl, by decide⟩

/-- C9 amended: there is no memoization. Each of the sampler and the record
extractor issues its own listing query through a freshly built client, so a
run performs two listing queries: the sampler consumes the first listing and
the extractor the second; the two coincide only when the store is unchanged
between the queries. -/
theorem C9_listing_per_call :
    (∀ (st : Store) (n : Nat), (sampleKeyQ st n).2 = n + 1 ∧
      (sampleKeyQ st n).1 = get_sample_csv_key (st.listings n)) ∧
    (∀ (sd : Option Datetime) (st : Store) (n : Nat),
      (getRecordsQ sd st n).2 = n + 1 ∧
      (getRecordsQ sd st n).1 = get_records_cat sd (st.listings n)) ∧
    (∀ (sd : Option Datetime) (st : Store),
      (fullRun sd st).2 = 2 ∧
      (fullRun sd st).1.1 = get_sample_csv_key (st.listings 0) ∧
      (fullRun sd st).1.2 = get_records_cat sd (st.listings 1)) ∧
    (∀ (sd : Option Datetime) (st : Store),
      st.listings 0 = st.listings 1 →
      (fullRun sd st).1.2 = get_records_cat sd (st.listings 0)) := by
  refine ⟨fun st n => ⟨rfl, rfl⟩, fun sd st n => ⟨rfl, rfl⟩,
    fun sd st => ⟨rfl, rfl, rfl⟩, ?_⟩
  intro sd st h
  show get_records_cat sd (st.listings 1) = get_records_cat sd (st.listings 0)
  rw [h]

/-- C9 witness: over an unchanging store, the extraction output agrees with
the first listing. -/
theorem C9_listing_per_call_witness :
    (fullRun none steadyStore).1.2 =
      get_records_cat none (steadyStore.listings 0) :=
  C9_listing_per_call.2.2.2 none steadyStore rfl

end TapAwsS3
